import Mathlib

/-!
# Retur service (main.go): lifecycle handlers and the undo stack

A shallow embedding of `main.go`.

* `Retur`, `Stack` (`Push`, `Pop`, `IsEmpty`) and the five HTTP handlers are
  translated from the Go source line by line.
* The two global variables `db` and `deletedStack` become the two fields of
  `State`; each handler maps a state and a request to the next state and the
  response it writes.
* Request plumbing is an input: the result of `strconv.Atoi(vars["id"])` is an
  `Option Int` (`none` when Atoi returns an error) and the result of decoding
  the JSON body is an `Option` of the decoded struct (`none` when Decode
  returns an error).
* The table behind `db` (GORM on MySQL) is a list of rows plus the
  AUTO_INCREMENT counter of the primary key column `id`.  Every database call
  takes a flag `fault` that says whether the backend fails that call; a failed
  call changes nothing.  The library behaviour the model records:
  - `Create` leaves a zero `ID` out of the INSERT, so the table assigns the
    counter value and the struct receives it; a non-zero `ID` is inserted as
    given and is refused when a row already holds it;
  - `First(&r, id)` selects by primary key and reports a missing row as an error;
  - `Save` updates all columns of the row with the struct primary key, inserts
    the row when no row has it, and is a `Create` when the key is zero;
  - `Delete(&r)` deletes by the struct primary key and refuses a zero key.
* `DB.WF` states the constraints of the table (unique non-zero keys below the
  counter); `run_WF` shows every request keeps them.
-/

namespace ReturApp

/-! ## Data model -/

/-- The struct `Retur` (main.go 15-21). -/
structure Retur where
  ID : Int
  Barang : String
  Alasan : String
  Status : String
  Pengembalian : String
  deriving DecidableEq

/-- The Go zero value of `Retur`: zero id and empty strings. -/
instance : Inhabited Retur := ⟨⟨0, "", "", "", ""⟩⟩

/-- The generic `Stack[T]` (main.go 24-26): a slice whose last element is the top. -/
structure Stack (T : Type) where
  items : List T
  deriving DecidableEq

namespace Stack

/-- `Push` (main.go 29-31): `s.items = append(s.items, item)`. -/
def Push {T : Type} (s : Stack T) (item : T) : Stack T :=
  { items := s.items ++ [item] }

/-- `Pop` (main.go 34-44): on an empty slice the zero value and `false`; otherwise
`s.items[len-1]`, `true`, and the slice cut to `s.items[:len-1]`.
The result is the returned pair together with the stack after the call. -/
def Pop {T : Type} [Inhabited T] (s : Stack T) : (T × Bool) × Stack T :=
  if s.items.length = 0 then
    ((default, false), s)
  else
    ((s.items.getD (s.items.length - 1) default, true),
      { items := s.items.take (s.items.length - 1) })

/-- `IsEmpty` (main.go 47-49): `len(s.items) == 0`. -/
def IsEmpty {T : Type} (s : Stack T) : Bool :=
  s.items.length == 0

end Stack

/-! ## The table behind `db` -/

/-- Errors a database call can return. -/
inductive DBError where
  | backend
  | recordNotFound
  | duplicateKey
  | missingWhereClause
  deriving DecidableEq

/-- The table of `Retur` rows: the rows and the AUTO_INCREMENT counter of `id`. -/
structure DB where
  rows : List Retur
  autoInc : Int
  deriving DecidableEq

namespace DB

/-- Whether some row already holds the primary key `id`. -/
def hasID (d : DB) (id : Int) : Bool :=
  d.rows.any (fun x => x.ID == id)

/-- INSERT of a row with an explicit primary key: refused on a duplicate key,
otherwise the row is added and the counter moves past the inserted key. -/
def insert (d : DB) (r : Retur) : Except DBError DB :=
  if d.hasID r.ID then .error .duplicateKey
  else .ok { rows := d.rows ++ [r], autoInc := max d.autoInc (r.ID + 1) }

/-- `db.Find(&returs)`: all rows. -/
def Find (d : DB) (fault : Bool) : Except DBError (List Retur) :=
  if fault then .error .backend else .ok d.rows

/-- `db.Create(&r)`: a zero `ID` is left out of the INSERT, so the table assigns
the AUTO_INCREMENT value and GORM writes it back into the struct; a non-zero
`ID` is inserted as given.  Returns the table and the struct after the call. -/
def Create (d : DB) (fault : Bool) (r : Retur) : Except DBError (DB × Retur) :=
  if fault then .error .backend
  else
    let r1 : Retur := if r.ID = 0 then { r with ID := d.autoInc } else r
    match d.insert r1 with
    | .error e => .error e
    | .ok d1 => .ok (d1, r1)

/-- `db.First(&retur, id)`: the row whose primary key is `id`, else
`ErrRecordNotFound`. -/
def First (d : DB) (fault : Bool) (id : Int) : Except DBError Retur :=
  if fault then .error .backend
  else
    match d.rows.find? (fun x => x.ID == id) with
    | some r => .ok r
    | none => .error .recordNotFound

/-- `db.Save(&r)`: with a zero primary key it is a Create; otherwise it updates
all columns of the row with that key, and inserts the row when none has it. -/
def Save (d : DB) (fault : Bool) (r : Retur) : Except DBError (DB × Retur) :=
  if fault then .error .backend
  else if r.ID = 0 then d.Create false r
  else if d.hasID r.ID then
    .ok ({ d with rows := d.rows.map (fun x => if x.ID = r.ID then r else x) }, r)
  else
    match d.insert r with
    | .error e => .error e
    | .ok d1 => .ok (d1, r)

/-- `db.Delete(&r)`: deletes the row whose primary key is `r.ID`; with a zero
primary key there is no condition and GORM returns `ErrMissingWhereClause`. -/
def Delete (d : DB) (fault : Bool) (r : Retur) : Except DBError DB :=
  if fault then .error .backend
  else if r.ID = 0 then .error .missingWhereClause
  else .ok { d with rows := d.rows.filter (fun x => x.ID != r.ID) }

/-- The constraints the MySQL table enforces: `id` is a primary key (no two rows
share it), no row holds the key 0, and the counter is positive and above every
stored key. -/
def WF (d : DB) : Prop :=
  (d.rows.map (fun x => x.ID)).Nodup ∧ (∀ x ∈ d.rows, x.ID ≠ 0 ∧ x.ID < d.autoInc) ∧
    0 < d.autoInc

/-- The freshly migrated, empty table. -/
def empty : DB := { rows := [], autoInc := 1 }

end DB

/-! ## Responses -/

/-- The payloads the handlers encode as JSON. -/
inductive Payload where
  | error (msg : String)
  | message (msg : String)
  | retur (r : Retur)
  | returs (rs : List Retur)
  deriving DecidableEq

/-- What a handler writes: the HTTP status and the JSON payload. -/
structure Response where
  status : Nat
  payload : Payload
  deriving DecidableEq

/-- The `net/http` status constants the handlers use. -/
def StatusOK : Nat := 200
def StatusCreated : Nat := 201
def StatusBadRequest : Nat := 400
def StatusNotFound : Nat := 404
def StatusInternalServerError : Nat := 500

/-- `respondJSON` (main.go 71-75). -/
def respondJSON (status : Nat) (payload : Payload) : Response :=
  { status := status, payload := payload }

/-- `handleError` (main.go 78-80): the payload is the map with the key "error". -/
def handleError (status : Nat) (msg : String) : Response :=
  respondJSON status (.error msg)

/-! ## Handlers -/

/-- The package-level variables `db` and `deletedStack` (main.go 51-54). -/
structure State where
  db : DB
  deletedStack : Stack Retur
  deriving DecidableEq

/-- The anonymous input struct of `approveReturHandler` (main.go 124-126). -/
structure ApproveInput where
  Pengembalian : String
  deriving DecidableEq

/-- `getReturs` (main.go 83-93). -/
def getReturs (s : State) (fault : Bool) : State × Response :=
  match s.db.Find fault with
  | .error _ => (s, handleError StatusInternalServerError "Failed to retrieve returns")
  | .ok returs => (s, respondJSON StatusOK (.returs returs))

/-- `createRetur` (main.go 96-113). -/
def createRetur (s : State) (body : Option Retur) (fault : Bool) : State × Response :=
  match body with
  | none => (s, handleError StatusBadRequest "Invalid input")
  | some decoded =>
    let newRetur : Retur := { decoded with Status := "Dalam Proses" }
    match s.db.Create fault newRetur with
    | .error _ => (s, handleError StatusInternalServerError "Failed to create return")
    | .ok (db1, created) => ({ s with db := db1 }, respondJSON StatusCreated (.retur created))

/-- `approveReturHandler` (main.go 116-156). -/
def approveReturHandler (s : State) (idArg : Option Int) (body : Option ApproveInput)
    (faultFirst faultSave : Bool) : State × Response :=
  match idArg with
  | none => (s, handleError StatusBadRequest "Invalid ID format")
  | some id =>
    match body with
    | none => (s, handleError StatusBadRequest "Invalid input")
    | some input =>
      if input.Pengembalian ≠ "barang" ∧ input.Pengembalian ≠ "uang" then
        (s, handleError StatusBadRequest "Pengembalian must be \x27barang\x27 or \x27uang\x27")
      else
        match s.db.First faultFirst id with
        | .error _ => (s, handleError StatusNotFound "Return not found")
        | .ok found =>
          let retur : Retur :=
            { found with Pengembalian := input.Pengembalian, Status := "Disetujui" }
          match s.db.Save faultSave retur with
          | .error _ => (s, handleError StatusInternalServerError "Failed to update return")
          | .ok (db1, saved) => ({ s with db := db1 }, respondJSON StatusOK (.retur saved))

/-- The text `fmt.Sprintf("Return with ID %d deleted", id)`. -/
def deletedMessage (id : Int) : String :=
  "Return with ID " ++ toString id ++ " deleted"

/-- `deleteReturHandler` (main.go 159-183): the snapshot is pushed before
`db.Delete` is called, and stays pushed when that call fails. -/
def deleteReturHandler (s : State) (idArg : Option Int) (faultFirst faultDelete : Bool) :
    State × Response :=
  match idArg with
  | none => (s, handleError StatusBadRequest "Invalid ID format")
  | some id =>
    match s.db.First faultFirst id with
    | .error _ => (s, handleError StatusNotFound "Return not found")
    | .ok retur =>
      let s1 : State := { s with deletedStack := s.deletedStack.Push retur }
      match s1.db.Delete faultDelete retur with
      | .error _ => (s1, handleError StatusInternalServerError "Failed to delete return")
      | .ok db1 => ({ s1 with db := db1 }, respondJSON StatusOK (.message (deletedMessage id)))

/-- `undoDeleteReturHandler` (main.go 186-202): the popped snapshot is gone from
the stack whether or not `db.Create` succeeds. -/
def undoDeleteReturHandler (s : State) (fault : Bool) : State × Response :=
  if s.deletedStack.IsEmpty then
    (s, handleError StatusBadRequest "No returns to undo")
  else
    let popped := s.deletedStack.Pop
    let item : Retur := popped.1.1
    let s1 : State := { s with deletedStack := popped.2 }
    match s1.db.Create fault item with
    | .error _ => (s1, handleError StatusInternalServerError "Failed to restore return")
    | .ok (db1, restored) => ({ s1 with db := db1 }, respondJSON StatusOK (.retur restored))

/-! ## Request sequences -/

/-- One request to the router of `main` (main.go 207-212), with the outcome of
its plumbing and the fault flags of its database calls. -/
inductive Request where
  | list (fault : Bool)
  | create (body : Option Retur) (fault : Bool)
  | approve (idArg : Option Int) (body : Option ApproveInput) (faultFirst faultSave : Bool)
  | delete (idArg : Option Int) (faultFirst faultDelete : Bool)
  | undo (fault : Bool)

/-- Serve one request. -/
def step (s : State) : Request → State × Response
  | .list f => getReturs s f
  | .create b f => createRetur s b f
  | .approve i b f1 f2 => approveReturHandler s i b f1 f2
  | .delete i f1 f2 => deleteReturHandler s i f1 f2
  | .undo f => undoDeleteReturHandler s f

/-- Serve a sequence of requests one after the other: the state at the end and
the responses in the order they were written. -/
def serve (s : State) : List Request → State × List Response
  | [] => (s, [])
  | q :: qs => ((serve (step s q).1 qs).1, (step s q).2 :: (serve (step s q).1 qs).2)

/-- The state after serving a sequence of requests. -/
def run (s : State) (reqs : List Request) : State :=
  (serve s reqs).1

/-- The state right after `initDB`: an empty table and an empty undo stack. -/
def initState : State := { db := DB.empty, deletedStack := { items := [] } }

/-- A predicate on status and refund mode holds of every row of the table and of
every snapshot on the undo stack. -/
def State.All (P : String → String → Prop) (s : State) : Prop :=
  (∀ r ∈ s.db.rows, P r.Status r.Pengembalian) ∧
    (∀ r ∈ s.deletedStack.items, P r.Status r.Pengembalian)

/-- Pending, or approved with one of the two refund modes. -/
def Lifecycle (status mode : String) : Prop :=
  status = "Dalam Proses" ∨ (status = "Disetujui" ∧ (mode = "barang" ∨ mode = "uang"))

/-- Pending without a refund mode, or approved with one of the two refund modes. -/
def StrictLifecycle (status mode : String) : Prop :=
  (status = "Dalam Proses" ∧ mode = "") ∨
    (status = "Disetujui" ∧ (mode = "barang" ∨ mode = "uang"))

/-- Whether the request is a create whose decoded body carries a refund mode. -/
def Request.carriesMode : Request → Bool
  | .create (some b) _ => b.Pengembalian != ""
  | _ => false

/-! ## Sample data -/

/-- An approved return with a cash refund. -/
def shoes : Retur := ⟨1, "Shoes", "Wrong size", "Disetujui", "uang"⟩

/-- A pending return. -/
def hat : Retur := ⟨2, "Hat", "Damaged", "Dalam Proses", ""⟩

/-- A table holding `shoes` and `hat`, and an empty undo stack. -/
def sampleState : State :=
  { db := { rows := [shoes, hat], autoInc := 3 }, deletedStack := { items := [] } }

/-! ## The undo stack -/

theorem Stack.Pop_append_singleton {T : Type} [Inhabited T] (below : List T) (x : T) :
    Stack.Pop { items := below ++ [x] } = ((x, true), { items := below }) := by
  simp [Stack.Pop, List.getD_eq_getElem?_getD]

theorem Stack.Pop_Push {T : Type} [Inhabited T] (s : Stack T) (x : T) :
    (s.Push x).Pop = ((x, true), s) := by
  cases s with
  | mk items => exact Stack.Pop_append_singleton items x

theorem Stack.IsEmpty_Push {T : Type} (s : Stack T) (x : T) : (s.Push x).IsEmpty = false := by
  simp [Stack.Push, Stack.IsEmpty]

theorem Stack.Pop_nil {T : Type} [Inhabited T] :
    Stack.Pop ({ items := [] } : Stack T) = ((default, false), { items := [] }) := by
  simp [Stack.Pop]

/-- C6. `Pop` on the empty stack returns the zero value and `false` and leaves the
stack empty; `Pop` on a stack whose top is `x` above `below` returns `x` and `true`
and leaves exactly `below`; every stack is of one of these two shapes; and `Pop`
after `Push x` returns `x`, `true` and the stack as it was before the push. -/
theorem Stack.Pop_spec {T : Type} [Inhabited T] (s : Stack T) (below : List T) (x : T) :
    (Stack.Pop ({ items := [] } : Stack T) = ((default, false), { items := [] })
      ∧ (Stack.Pop ({ items := [] } : Stack T)).2.IsEmpty = true)
    ∧ (Stack.Pop { items := below ++ [x] } = ((x, true), { items := below })
      ∧ Stack.Push { items := below } x = { items := below ++ [x] })
    ∧ ((s.IsEmpty = true ∧ s = { items := [] })
      ∨ (s.IsEmpty = false ∧ ∃ l y, s = Stack.Push { items := l } y))
    ∧ (s.Push x).Pop = ((x, true), s) := by
  refine ⟨⟨Stack.Pop_nil, ?_⟩, ⟨Stack.Pop_append_singleton below x, rfl⟩, ?_, Stack.Pop_Push s x⟩
  · simp [Stack.Pop, Stack.IsEmpty]
  · cases s with
    | mk items =>
      rcases List.eq_nil_or_concat items with h | ⟨l, y, h⟩
      · left; subst h; simp [Stack.IsEmpty]
      · right; subst h
        exact ⟨by simp [Stack.IsEmpty], l, y, by simp [Stack.Push]⟩

/-! ## The table -/

theorem DB.hasID_eq_true (d : DB) (id : Int) :
    d.hasID id = true ↔ ∃ x ∈ d.rows, x.ID = id := by
  simp [DB.hasID]

theorem DB.hasID_eq_false (d : DB) (id : Int) :
    d.hasID id = false ↔ ∀ x ∈ d.rows, x.ID ≠ id := by
  simp [DB.hasID]

theorem find_ID_of_mem (l : List Retur) (R : Retur)
    (hnd : (l.map (fun x => x.ID)).Nodup) (hR : R ∈ l) :
    l.find? (fun x => x.ID == R.ID) = some R := by
  induction l with
  | nil => simp at hR
  | cons a t ih =>
    simp only [List.map_cons, List.nodup_cons] at hnd
    rcases List.mem_cons.mp hR with h | h
    · subst h; simp
    · have hne : a.ID ≠ R.ID := by
        intro he
        exact hnd.1 (he ▸ List.mem_map_of_mem (fun x => x.ID) h)
      rw [List.find?_cons_of_neg]
      · exact ih hnd.2 h
      · simpa using hne

theorem find_ID_none (l : List Retur) (id : Int) (h : ∀ x ∈ l, x.ID ≠ id) :
    l.find? (fun x => x.ID == id) = none := by
  simpa using h

theorem DB.First_eq_ok (d : DB) (fault : Bool) (id : Int) (r : Retur)
    (h : d.First fault id = .ok r) : fault = false ∧ r ∈ d.rows ∧ r.ID = id := by
  unfold DB.First at h
  cases fault with
  | true => simp at h
  | false =>
    simp only [Bool.false_eq_true, if_false] at h
    cases hf : d.rows.find? (fun x => x.ID == id) with
    | none => simp [hf] at h
    | some r0 =>
      simp only [hf, Except.ok.injEq] at h
      subst h
      have := List.find?_some hf
      exact ⟨rfl, List.mem_of_find?_eq_some hf, by simpa using this⟩

theorem DB.First_of_mem (d : DB) (R : Retur)
    (hnd : (d.rows.map (fun x => x.ID)).Nodup) (hR : R ∈ d.rows) :
    d.First false R.ID = .ok R := by
  simp [DB.First, find_ID_of_mem d.rows R hnd hR]

theorem DB.First_absent (d : DB) (fault : Bool) (id : Int) (h : ∀ x ∈ d.rows, x.ID ≠ id) :
    ∃ e, d.First fault id = .error e := by
  unfold DB.First
  cases fault with
  | true => exact ⟨_, rfl⟩
  | false => simp [find_ID_none d.rows id h]

theorem DB.Create_fresh (d : DB) (R : Retur) (h0 : R.ID ≠ 0)
    (hfree : ∀ x ∈ d.rows, x.ID ≠ R.ID) :
    d.Create false R =
      .ok ({ rows := d.rows ++ [R], autoInc := max d.autoInc (R.ID + 1) }, R) := by
  have hh : d.hasID R.ID = false := (DB.hasID_eq_false d R.ID).mpr hfree
  simp [DB.Create, DB.insert, h0, hh]

theorem DB.Create_eq_ok (d d1 : DB) (fault : Bool) (r r1 : Retur)
    (h : d.Create fault r = .ok (d1, r1)) :
    fault = false ∧ d1.rows = d.rows ++ [r1] ∧ d1.autoInc = max d.autoInc (r1.ID + 1)
      ∧ r1 = (if r.ID = 0 then { r with ID := d.autoInc } else r)
      ∧ ∀ x ∈ d.rows, x.ID ≠ r1.ID := by
  unfold DB.Create at h
  cases fault with
  | true => simp at h
  | false =>
    simp only [Bool.false_eq_true, if_false] at h
    generalize hr : (if r.ID = 0 then { r with ID := d.autoInc } else r) = r2 at h
    unfold DB.insert at h
    by_cases hh : d.hasID r2.ID = true
    · simp [hh] at h
    · simp only [hh, Bool.false_eq_true, if_false, Except.ok.injEq, Prod.mk.injEq] at h
      obtain ⟨h1, h2⟩ := h
      subst h1 h2
      refine ⟨rfl, rfl, rfl, rfl, ?_⟩
      exact (DB.hasID_eq_false d _).mp (by simpa using hh)

theorem DB.Save_present (d : DB) (r : Retur) (h0 : r.ID ≠ 0) (hp : ∃ x ∈ d.rows, x.ID = r.ID) :
    d.Save false r =
      .ok ({ d with rows := d.rows.map (fun x => if x.ID = r.ID then r else x) }, r) := by
  have hh : d.hasID r.ID = true := (DB.hasID_eq_true d r.ID).mpr hp
  simp [DB.Save, h0, hh]

theorem DB.Save_eq_ok (d d1 : DB) (fault : Bool) (r r1 : Retur)
    (h : d.Save fault r = .ok (d1, r1)) :
    fault = false ∧ r1.Status = r.Status ∧ r1.Pengembalian = r.Pengembalian
      ∧ ∀ x ∈ d1.rows, x ∈ d.rows ∨ x = r1 := by
  unfold DB.Save at h
  cases fault with
  | true => simp at h
  | false =>
    simp only [Bool.false_eq_true, if_false] at h
    split at h
    · obtain ⟨-, hr, -, h1, -⟩ := DB.Create_eq_ok d d1 false r r1 h
      refine ⟨rfl, ?_, ?_, ?_⟩
      · rw [h1]; split <;> rfl
      · rw [h1]; split <;> rfl
      · intro x hx
        rw [hr] at hx
        simpa using hx
    · split at h
      · simp only [Except.ok.injEq, Prod.mk.injEq] at h
        obtain ⟨h1, h2⟩ := h
        subst h1 h2
        refine ⟨rfl, rfl, rfl, ?_⟩
        intro x hx
        simp only [List.mem_map] at hx
        obtain ⟨y, hy, hxy⟩ := hx
        split at hxy
        · exact Or.inr hxy.symm
        · exact Or.inl (hxy ▸ hy)
      · unfold DB.insert at h
        by_cases hh : d.hasID r.ID = true
        · simp [hh] at h
        · simp only [hh, Bool.false_eq_true, if_false, Except.ok.injEq, Prod.mk.injEq] at h
          obtain ⟨h1, h2⟩ := h
          subst h1 h2
          refine ⟨rfl, rfl, rfl, ?_⟩
          intro x hx
          simpa using hx

theorem DB.Delete_eq_ok (d d1 : DB) (fault : Bool) (r : Retur)
    (h : d.Delete fault r = .ok d1) :
    fault = false ∧ r.ID ≠ 0
      ∧ d1 = { d with rows := d.rows.filter (fun x => x.ID != r.ID) } := by
  unfold DB.Delete at h
  cases fault with
  | true => simp at h
  | false =>
    simp only [Bool.false_eq_true, if_false] at h
    split at h
    · simp at h
    · rename_i h0
      simp only [Except.ok.injEq] at h
      exact ⟨rfl, h0, h.symm⟩

theorem DB.Delete_nonzero (d : DB) (r : Retur) (h0 : r.ID ≠ 0) :
    d.Delete false r = .ok { d with rows := d.rows.filter (fun x => x.ID != r.ID) } := by
  simp [DB.Delete, h0]

theorem mem_filter_ID (l : List Retur) (id : Int) (x : Retur) :
    x ∈ l.filter (fun y => y.ID != id) ↔ x ∈ l ∧ x.ID ≠ id := by
  simp [List.mem_filter]

theorem nodup_filter_ID (l : List Retur) (id : Int)
    (h : (l.map (fun x => x.ID)).Nodup) :
    ((l.filter (fun y => y.ID != id)).map (fun x => x.ID)).Nodup :=
  h.sublist ((List.filter_sublist l).map _)

theorem ID_ne_of_ne (l : List Retur) (x y : Retur)
    (h : (l.map (fun x => x.ID)).Nodup) (hx : x ∈ l) (hy : y ∈ l) (hne : x ≠ y) :
    x.ID ≠ y.ID := by
  intro he
  apply hne
  have := find_ID_of_mem l x h hx
  rw [he, find_ID_of_mem l y h hy] at this
  exact (Option.some.inj this).symm

/-! ## Handlers on a record that is present -/

theorem approve_present (s : State) (R : Retur) (input : ApproveInput) (f1 f2 : Bool)
    (hnd : (s.db.rows.map (fun x => x.ID)).Nodup) (hR : R ∈ s.db.rows) (h0 : R.ID ≠ 0)
    (hm : input.Pengembalian = "barang" ∨ input.Pengembalian = "uang") :
    approveReturHandler s (some R.ID) (some input) f1 f2 =
      if f1 then (s, handleError StatusNotFound "Return not found")
      else if f2 then (s, handleError StatusInternalServerError "Failed to update return")
      else
        ({ s with db := { s.db with rows := s.db.rows.map (fun x =>
              if x.ID = R.ID then
                { R with Pengembalian := input.Pengembalian, Status := "Disetujui" }
              else x) } },
          respondJSON StatusOK
            (.retur { R with Pengembalian := input.Pengembalian, Status := "Disetujui" })) := by
  have hg : ¬(input.Pengembalian ≠ "barang" ∧ input.Pengembalian ≠ "uang") := by
    rcases hm with h | h <;> simp [h]
  unfold approveReturHandler
  simp only [hg, if_false]
  cases f1 with
  | true => simp [DB.First]
  | false =>
    rw [DB.First_of_mem s.db R hnd hR]
    cases f2 with
    | true => simp [DB.Save]
    | false =>
      have hs := DB.Save_present s.db
        { R with Pengembalian := input.Pengembalian, Status := "Disetujui" } h0 ⟨R, hR, rfl⟩
      simp only [hs]
      simp

theorem delete_present (s : State) (R : Retur) (f1 f2 : Bool)
    (hnd : (s.db.rows.map (fun x => x.ID)).Nodup) (hR : R ∈ s.db.rows) :
    deleteReturHandler s (some R.ID) f1 f2 =
      if f1 then (s, handleError StatusNotFound "Return not found")
      else if f2 ∨ R.ID = 0 then
        ({ s with deletedStack := s.deletedStack.Push R },
          handleError StatusInternalServerError "Failed to delete return")
      else
        ({ db := { s.db with rows := s.db.rows.filter (fun x => x.ID != R.ID) },
           deletedStack := s.deletedStack.Push R },
          respondJSON StatusOK (.message (deletedMessage R.ID))) := by
  unfold deleteReturHandler
  cases f1 with
  | true => simp [DB.First]
  | false =>
    simp only [DB.First_of_mem s.db R hnd hR]
    cases f2 with
    | true => simp [DB.Delete]
    | false =>
      by_cases h0 : R.ID = 0
      · simp [DB.Delete, h0]
      · simp [DB.Delete, h0]

theorem undo_pushed (d : DB) (st : Stack Retur) (R : Retur) (f : Bool) (h0 : R.ID ≠ 0)
    (hfree : ∀ x ∈ d.rows, x.ID ≠ R.ID) :
    undoDeleteReturHandler { db := d, deletedStack := st.Push R } f =
      if f then
        ({ db := d, deletedStack := st },
          handleError StatusInternalServerError "Failed to restore return")
      else
        ({ db := { rows := d.rows ++ [R], autoInc := max d.autoInc (R.ID + 1) },
           deletedStack := st },
          respondJSON StatusOK (.retur R)) := by
  unfold undoDeleteReturHandler
  simp only [Stack.IsEmpty_Push, Stack.Pop_Push, Bool.false_eq_true, if_false]
  cases f with
  | true => simp [DB.Create]
  | false => simp [DB.Create_fresh d R h0 hfree]

/-! ## Create -/

/-- C1. Whatever the decoded request body holds (any status, any other field) and
whatever the store holds, when `createRetur` answers 201 (the store write
succeeded) the record it returns is a row of the table afterwards, its status is
"Dalam Proses", and item, reason and refund mode are those of the body; the undo
stack is untouched. -/
theorem createRetur_status_pending (s : State) (decoded : Retur) (fault : Bool)
    (hok : (createRetur s (some decoded) fault).2.status = StatusCreated) :
    ∃ created : Retur,
      (createRetur s (some decoded) fault).2 = respondJSON StatusCreated (.retur created)
      ∧ created ∈ (createRetur s (some decoded) fault).1.db.rows
      ∧ created.Status = "Dalam Proses"
      ∧ created.Barang = decoded.Barang ∧ created.Alasan = decoded.Alasan
      ∧ created.Pengembalian = decoded.Pengembalian
      ∧ (createRetur s (some decoded) fault).1.deletedStack = s.deletedStack := by
  unfold createRetur at hok ⊢
  simp only at hok ⊢
  cases hc : s.db.Create fault { decoded with Status := "Dalam Proses" } with
  | error e =>
    rw [hc] at hok
    simp [handleError, respondJSON, StatusInternalServerError, StatusCreated] at hok
  | ok p =>
    obtain ⟨db1, created⟩ := p
    obtain ⟨-, hrows, -, hcr, -⟩ := DB.Create_eq_ok _ _ _ _ _ hc
    refine ⟨created, rfl, ?_, ?_, ?_, ?_, ?_, rfl⟩
    · simp [hrows]
    all_goals (rw [hcr]; split <;> rfl)

/-- Witness for C1: a body that claims the status "Disetujui" is stored as pending. -/
theorem createRetur_status_pending_witness :
    (createRetur initState (some ⟨0, "Shoes", "Wrong size", "Disetujui", ""⟩) false).2.status
        = StatusCreated
    ∧ ∃ created : Retur,
      (createRetur initState (some ⟨0, "Shoes", "Wrong size", "Disetujui", ""⟩) false).2
          = respondJSON StatusCreated (.retur created)
      ∧ created ∈
          (createRetur initState (some ⟨0, "Shoes", "Wrong size", "Disetujui", ""⟩) false).1.db.rows
      ∧ created.Status = "Dalam Proses"
      ∧ created.Barang = "Shoes" ∧ created.Alasan = "Wrong size"
      ∧ created.Pengembalian = ""
      ∧ (createRetur initState (some ⟨0, "Shoes", "Wrong size", "Disetujui", ""⟩) false).1.deletedStack
          = initState.deletedStack :=
  ⟨by decide,
    createRetur_status_pending initState ⟨0, "Shoes", "Wrong size", "Disetujui", ""⟩ false
      (by decide)⟩

/-! ## Approve -/

/-- C2. On a well-formed table, for a row `R` (pending or approved, with any refund
mode) and a refund mode "barang" or "uang", an approve that answers 200 returns
`R` with the refund mode replaced by the supplied one and the status "Disetujui"
(id, item and reason as in `R`), that record is a row afterwards, every other
row is still there, nothing else was added, and the undo stack is untouched. -/
theorem approve_sets_mode_and_status (s : State) (R : Retur) (input : ApproveInput)
    (f1 f2 : Bool) (hwf : s.db.WF) (hR : R ∈ s.db.rows)
    (hm : input.Pengembalian = "barang" ∨ input.Pengembalian = "uang")
    (hok : (approveReturHandler s (some R.ID) (some input) f1 f2).2.status = StatusOK) :
    (approveReturHandler s (some R.ID) (some input) f1 f2).2 =
        respondJSON StatusOK
          (.retur ⟨R.ID, R.Barang, R.Alasan, "Disetujui", input.Pengembalian⟩)
    ∧ (⟨R.ID, R.Barang, R.Alasan, "Disetujui", input.Pengembalian⟩ : Retur) ∈
        (approveReturHandler s (some R.ID) (some input) f1 f2).1.db.rows
    ∧ (∀ x ∈ s.db.rows, x ≠ R →
        x ∈ (approveReturHandler s (some R.ID) (some input) f1 f2).1.db.rows)
    ∧ (∀ x ∈ (approveReturHandler s (some R.ID) (some input) f1 f2).1.db.rows,
        x = ⟨R.ID, R.Barang, R.Alasan, "Disetujui", input.Pengembalian⟩
          ∨ (x ∈ s.db.rows ∧ x ≠ R))
    ∧ (approveReturHandler s (some R.ID) (some input) f1 f2).1.db.rows.length
        = s.db.rows.length
    ∧ (approveReturHandler s (some R.ID) (some input) f1 f2).1.deletedStack
        = s.deletedStack := by
  have hnd := hwf.1
  have h0 : R.ID ≠ 0 := (hwf.2.1 R hR).1
  rw [approve_present s R input f1 f2 hnd hR h0 hm] at hok ⊢
  cases f1 with
  | true => simp [handleError, respondJSON, StatusNotFound, StatusOK] at hok
  | false =>
    cases f2 with
    | true => simp [handleError, respondJSON, StatusInternalServerError, StatusOK] at hok
    | false =>
      rw [if_neg Bool.false_ne_true, if_neg Bool.false_ne_true]
      refine ⟨rfl, ?_, ?_, ?_, ?_, rfl⟩
      · exact List.mem_map.mpr ⟨R, hR, by simp⟩
      · intro x hx hne
        have hid : x.ID ≠ R.ID := ID_ne_of_ne s.db.rows x R hnd hx hR hne
        exact List.mem_map.mpr ⟨x, hx, by simp [hid]⟩
      · intro x hx
        obtain ⟨y, hy, hxy⟩ := List.mem_map.mp hx
        by_cases hid : y.ID = R.ID
        · left; simp only [hid, if_true] at hxy; exact hxy.symm
        · right
          simp only [hid, if_false] at hxy
          subst hxy
          exact ⟨hy, fun he => hid (he ▸ rfl)⟩
      · simp

theorem approve_absent (s : State) (id : Int) (input : ApproveInput)
    (f1 f2 : Bool) (habs : ∀ x ∈ s.db.rows, x.ID ≠ id)
    (hm : input.Pengembalian = "barang" ∨ input.Pengembalian = "uang") :
    approveReturHandler s (some id) (some input) f1 f2 =
      (s, handleError StatusNotFound "Return not found") := by
  have hg : ¬(input.Pengembalian ≠ "barang" ∧ input.Pengembalian ≠ "uang") := by
    rcases hm with h | h <;> simp [h]
  obtain ⟨e, he⟩ := DB.First_absent s.db f1 id habs
  simp [approveReturHandler, hg, he]

theorem delete_present_ok (s : State) (R : Retur) (f1 f2 : Bool)
    (hnd : (s.db.rows.map (fun x => x.ID)).Nodup) (hR : R ∈ s.db.rows)
    (hok : (deleteReturHandler s (some R.ID) f1 f2).2.status = StatusOK) :
    deleteReturHandler s (some R.ID) f1 f2 =
      ({ db := { s.db with rows := s.db.rows.filter (fun x => x.ID != R.ID) },
         deletedStack := s.deletedStack.Push R },
        respondJSON StatusOK (.message (deletedMessage R.ID)))
    ∧ R.ID ≠ 0 := by
  rw [delete_present s R f1 f2 hnd hR] at hok ⊢
  cases f1 with
  | true => simp [handleError, respondJSON, StatusNotFound, StatusOK] at hok
  | false =>
    by_cases hc : f2 = true ∨ R.ID = 0
    · simp [hc, handleError, respondJSON, StatusInternalServerError, StatusOK] at hok
    · exact ⟨by simp [hc], fun h => hc (Or.inr h)⟩

theorem undo_pushed_ok (d : DB) (st : Stack Retur) (R : Retur) (f : Bool) (h0 : R.ID ≠ 0)
    (hfree : ∀ x ∈ d.rows, x.ID ≠ R.ID)
    (hok : (undoDeleteReturHandler { db := d, deletedStack := st.Push R } f).2.status
      = StatusOK) :
    undoDeleteReturHandler { db := d, deletedStack := st.Push R } f =
      ({ db := { rows := d.rows ++ [R], autoInc := max d.autoInc (R.ID + 1) },
         deletedStack := st },
        respondJSON StatusOK (.retur R)) := by
  rw [undo_pushed d st R f h0 hfree] at hok ⊢
  cases f with
  | true => simp [handleError, respondJSON, StatusInternalServerError, StatusOK] at hok
  | false => simp

theorem sampleState_WF : sampleState.db.WF := by
  refine ⟨by decide, ?_, by decide⟩
  intro x hx
  simp only [sampleState, List.mem_cons, List.mem_singleton, List.not_mem_nil, or_false] at hx
  rcases hx with h | h <;> subst h <;> decide

/-- Witness for C2: re-approving the approved `shoes` (cash refund) with "barang"
overwrites its refund mode and leaves `hat` in place. -/
theorem approve_sets_mode_and_status_witness :
    shoes ∈ sampleState.db.rows
    ∧ (approveReturHandler sampleState (some shoes.ID) (some ⟨"barang"⟩) false false).2 =
        respondJSON StatusOK (.retur ⟨1, "Shoes", "Wrong size", "Disetujui", "barang"⟩)
    ∧ hat ∈ (approveReturHandler sampleState (some shoes.ID) (some ⟨"barang"⟩) false false).1.db.rows :=
  ⟨by decide,
    (approve_sets_mode_and_status sampleState shoes ⟨"barang"⟩ false false sampleState_WF
      (by decide) (by decide) (by decide)).1,
    (approve_sets_mode_and_status sampleState shoes ⟨"barang"⟩ false false sampleState_WF
      (by decide) (by decide) (by decide)).2.2.1 hat (by decide) (by decide)⟩

/-- C7. For every state, every id argument (well-formed or not, present or not) and
every decoded body whose refund mode is neither "barang" nor "uang" (the empty
string included), approve answers 400 and leaves the table and the undo stack as
they were; for a well-formed id the error is the refund-mode message. -/
theorem approve_invalid_mode_rejected (s : State) (idArg : Option Int) (id : Int)
    (input : ApproveInput) (f1 f2 : Bool)
    (h1 : input.Pengembalian ≠ "barang") (h2 : input.Pengembalian ≠ "uang") :
    (approveReturHandler s idArg (some input) f1 f2).2.status = StatusBadRequest
    ∧ (approveReturHandler s idArg (some input) f1 f2).1 = s
    ∧ approveReturHandler s (some id) (some input) f1 f2 =
        (s, handleError StatusBadRequest
          "Pengembalian must be \x27barang\x27 or \x27uang\x27") := by
  have hg : input.Pengembalian ≠ "barang" ∧ input.Pengembalian ≠ "uang" := ⟨h1, h2⟩
  cases idArg with
  | none => simp [approveReturHandler, hg, handleError, respondJSON]
  | some i => simp [approveReturHandler, hg, handleError, respondJSON]

/-- Witness for C7: an empty refund mode on the present record `hat`. -/
theorem approve_invalid_mode_rejected_witness :
    approveReturHandler sampleState (some 2) (some ⟨""⟩) false false =
      (sampleState, handleError StatusBadRequest
        "Pengembalian must be \x27barang\x27 or \x27uang\x27") :=
  (approve_invalid_mode_rejected sampleState (some 2) 2 ⟨""⟩ false false
    (by decide) (by decide)).2.2

/-- Counterexample to C8: no row of `sampleState` has id 7, yet approving id 7 with
the refund mode "tunai" answers 400, not 404. -/
theorem approve_absent_id_counterexample :
    (∀ x ∈ sampleState.db.rows, x.ID ≠ 7)
    ∧ (approveReturHandler sampleState (some 7) (some ⟨"tunai"⟩) false false).2.status
        = StatusBadRequest
    ∧ (approveReturHandler sampleState (some 7) (some ⟨"tunai"⟩) false false).2.status
        ≠ StatusNotFound := by
  decide

/-- C8 (amended). For every state, every well-formed id that no row holds, and
every refund mode "barang" or "uang", approve answers 404 "Return not found" and
changes nothing. -/
theorem approve_absent_id_not_found (s : State) (id : Int) (input : ApproveInput)
    (f1 f2 : Bool) (habs : ∀ x ∈ s.db.rows, x.ID ≠ id)
    (hm : input.Pengembalian = "barang" ∨ input.Pengembalian = "uang") :
    approveReturHandler s (some id) (some input) f1 f2 =
      (s, handleError StatusNotFound "Return not found") :=
  approve_absent s id input f1 f2 habs hm

/-- Witness for C8 (amended): approving the absent id 7 with "uang". -/
theorem approve_absent_id_not_found_witness :
    approveReturHandler sampleState (some 7) (some ⟨"uang"⟩) false false =
      (sampleState, handleError StatusNotFound "Return not found") :=
  approve_absent_id_not_found sampleState 7 ⟨"uang"⟩ false false (by decide) (by decide)

/-! ## Delete -/

theorem delete_absent (s : State) (id : Int) (f1 f2 : Bool)
    (habs : ∀ x ∈ s.db.rows, x.ID ≠ id) :
    deleteReturHandler s (some id) f1 f2 =
      (s, handleError StatusNotFound "Return not found") := by
  obtain ⟨e, he⟩ := DB.First_absent s.db f1 id habs
  simp [deleteReturHandler, he]

/-- C3. When ids are unique and `R` is a row, after a delete of `R.ID` that answers
200: the list of all records is the old rows without `R`, no row holds `R.ID`,
the lookup by `R.ID` fails, so delete and approve of `R.ID` both answer 404, and
every other row is still present. -/
theorem delete_removes_record (s : State) (R : Retur) (input : ApproveInput)
    (f1 f2 g1 g2 : Bool)
    (hnd : (s.db.rows.map (fun x => x.ID)).Nodup) (hR : R ∈ s.db.rows)
    (hm : input.Pengembalian = "barang" ∨ input.Pengembalian = "uang")
    (hok : (deleteReturHandler s (some R.ID) f1 f2).2.status = StatusOK) :
    (getReturs (deleteReturHandler s (some R.ID) f1 f2).1 false).2 =
        respondJSON StatusOK (.returs (s.db.rows.filter (fun x => x.ID != R.ID)))
    ∧ R ∉ (deleteReturHandler s (some R.ID) f1 f2).1.db.rows
    ∧ (∀ x ∈ (deleteReturHandler s (some R.ID) f1 f2).1.db.rows, x.ID ≠ R.ID ∧ x ∈ s.db.rows)
    ∧ (deleteReturHandler s (some R.ID) f1 f2).1.db.First false R.ID
        = .error .recordNotFound
    ∧ deleteReturHandler (deleteReturHandler s (some R.ID) f1 f2).1 (some R.ID) g1 g2 =
        ((deleteReturHandler s (some R.ID) f1 f2).1,
          handleError StatusNotFound "Return not found")
    ∧ approveReturHandler (deleteReturHandler s (some R.ID) f1 f2).1 (some R.ID)
          (some input) g1 g2 =
        ((deleteReturHandler s (some R.ID) f1 f2).1,
          handleError StatusNotFound "Return not found")
    ∧ (∀ x ∈ s.db.rows, x ≠ R → x ∈ (deleteReturHandler s (some R.ID) f1 f2).1.db.rows) := by
  obtain ⟨hs, -⟩ := delete_present_ok s R f1 f2 hnd hR hok
  rw [hs]
  have habs : ∀ x ∈ s.db.rows.filter (fun x => x.ID != R.ID), x.ID ≠ R.ID :=
    fun x hx => ((mem_filter_ID _ _ _).mp hx).2
  refine ⟨by simp [getReturs, DB.Find], ?_, ?_, ?_, ?_, ?_, ?_⟩
  · intro hx
    exact habs R hx rfl
  · intro x hx
    exact ⟨habs x hx, ((mem_filter_ID _ _ _).mp hx).1⟩
  · simp [DB.First, find_ID_none _ _ habs]
  · exact delete_absent _ _ _ _ habs
  · exact approve_absent _ _ _ _ _ habs hm
  · intro x hx hne
    exact (mem_filter_ID _ _ _).mpr ⟨hx, ID_ne_of_ne s.db.rows x R hnd hx hR hne⟩

/-- Witness for C3: deleting `shoes` from `sampleState`. -/
theorem delete_removes_record_witness :
    (deleteReturHandler sampleState (some shoes.ID) false false).2.status = StatusOK
    ∧ (getReturs (deleteReturHandler sampleState (some shoes.ID) false false).1 false).2 =
        respondJSON StatusOK (.returs [hat])
    ∧ deleteReturHandler (deleteReturHandler sampleState (some shoes.ID) false false).1
          (some shoes.ID) false false =
        ((deleteReturHandler sampleState (some shoes.ID) false false).1,
          handleError StatusNotFound "Return not found") :=
  ⟨by decide,
    (delete_removes_record sampleState shoes ⟨"uang"⟩ false false false false
      (by decide) (by decide) (by decide) (by decide)).1,
    (delete_removes_record sampleState shoes ⟨"uang"⟩ false false false false
      (by decide) (by decide) (by decide) (by decide)).2.2.2.2.1⟩

/-! ## Delete followed by undo -/

/-- Counterexample to C4: `shoes` has id 1; deleting it and undoing, both answering
200, restores a record whose id is again 1. -/
theorem delete_undo_id_counterexample :
    shoes ∈ sampleState.db.rows
    ∧ shoes.ID = 1
    ∧ (deleteReturHandler sampleState (some 1) false false).2.status = StatusOK
    ∧ (undoDeleteReturHandler (deleteReturHandler sampleState (some 1) false false).1 false).2
        = respondJSON StatusOK (.retur ⟨1, "Shoes", "Wrong size", "Disetujui", "uang"⟩)
    ∧ ¬ ((⟨1, "Shoes", "Wrong size", "Disetujui", "uang"⟩ : Retur).ID ≠ shoes.ID) := by
  decide

/-- C4 (amended). When ids are unique and `R` is a row, a delete of `R.ID` followed
at once by an undo, both answering 200, makes the undo return `R` itself: the
same id, item, reason, status and refund mode. `R` is a row again, the table
holds the same records as before, and the undo stack is as it was. -/
theorem delete_undo_restores (s : State) (R : Retur) (f1 f2 f3 : Bool)
    (hnd : (s.db.rows.map (fun x => x.ID)).Nodup) (hR : R ∈ s.db.rows)
    (hok : ∀ r ∈ (serve s [.delete (some R.ID) f1 f2, .undo f3]).2, r.status = StatusOK) :
    (serve s [.delete (some R.ID) f1 f2, .undo f3]).2 =
        [respondJSON StatusOK (.message (deletedMessage R.ID)),
          respondJSON StatusOK (.retur R)]
    ∧ R ∈ (run s [.delete (some R.ID) f1 f2, .undo f3]).db.rows
    ∧ (∀ x, x ∈ (run s [.delete (some R.ID) f1 f2, .undo f3]).db.rows ↔ x ∈ s.db.rows)
    ∧ (run s [.delete (some R.ID) f1 f2, .undo f3]).deletedStack = s.deletedStack := by
  simp only [run, serve, step, List.forall_mem_cons] at hok ⊢
  obtain ⟨h1, h2, -⟩ := hok
  obtain ⟨e1, h0⟩ := delete_present_ok s R f1 f2 hnd hR h1
  rw [e1] at h2 ⊢
  have hfree : ∀ x ∈ s.db.rows.filter (fun x => x.ID != R.ID), x.ID ≠ R.ID :=
    fun x hx => ((mem_filter_ID _ _ _).mp hx).2
  have e2 := undo_pushed_ok _ _ R f3 h0 hfree h2
  rw [e2]
  refine ⟨rfl, by simp, ?_, rfl⟩
  intro x
  simp only [List.mem_append, List.mem_singleton, mem_filter_ID]
  constructor
  · rintro (⟨hx, -⟩ | rfl)
    · exact hx
    · exact hR
  · intro hx
    by_cases he : x.ID = R.ID
    · right
      by_contra hne
      exact ID_ne_of_ne s.db.rows x R hnd hx hR hne he
    · exact Or.inl ⟨hx, he⟩

/-- Witness for C4 (amended): deleting and restoring `shoes`. -/
theorem delete_undo_restores_witness :
    (serve sampleState [.delete (some shoes.ID) false false, .undo false]).2 =
      [respondJSON StatusOK (.message (deletedMessage shoes.ID)),
        respondJSON StatusOK (.retur shoes)] :=
  (delete_undo_restores sampleState shoes false false false (by decide) (by decide)
    (by decide)).1

/-- C5. When ids are unique, `A` and `B` are two distinct rows and the undo stack
holds anything, the requests delete `A`, delete `B`, undo, undo, all answering
200, behave as follows. After the two deletes neither `A` nor `B` is a row. The
first undo returns `B` and writes `B` back into the table while `A` is still
absent and its snapshot is the top of the stack. The second undo returns `A` and
writes `A` back, so the table holds exactly the records it held at the start.
The undo stack ends exactly as it was before the four requests. -/
theorem delete_delete_undo_undo_lifo (s : State) (A B : Retur)
    (fa1 fa2 fb1 fb2 fu1 fu2 : Bool)
    (hnd : (s.db.rows.map (fun x => x.ID)).Nodup) (hA : A ∈ s.db.rows) (hB : B ∈ s.db.rows)
    (hAB : A ≠ B)
    (hok : ∀ r ∈ (serve s [.delete (some A.ID) fa1 fa2, .delete (some B.ID) fb1 fb2,
      .undo fu1, .undo fu2]).2, r.status = StatusOK) :
    (serve s [.delete (some A.ID) fa1 fa2, .delete (some B.ID) fb1 fb2,
        .undo fu1, .undo fu2]).2 =
      [respondJSON StatusOK (.message (deletedMessage A.ID)),
        respondJSON StatusOK (.message (deletedMessage B.ID)),
        respondJSON StatusOK (.retur B),
        respondJSON StatusOK (.retur A)]
    ∧ (run s [.delete (some A.ID) fa1 fa2, .delete (some B.ID) fb1 fb2,
        .undo fu1, .undo fu2]).deletedStack = s.deletedStack
    ∧ ((run s [.delete (some A.ID) fa1 fa2, .delete (some B.ID) fb1 fb2]).db.rows =
        (s.db.rows.filter (fun x => x.ID != A.ID)).filter (fun x => x.ID != B.ID)
      ∧ A ∉ (run s [.delete (some A.ID) fa1 fa2, .delete (some B.ID) fb1 fb2]).db.rows
      ∧ B ∉ (run s [.delete (some A.ID) fa1 fa2, .delete (some B.ID) fb1 fb2]).db.rows)
    ∧ ((run s [.delete (some A.ID) fa1 fa2, .delete (some B.ID) fb1 fb2, .undo fu1]).db.rows =
        (s.db.rows.filter (fun x => x.ID != A.ID)).filter (fun x => x.ID != B.ID) ++ [B]
      ∧ B ∈ (run s [.delete (some A.ID) fa1 fa2, .delete (some B.ID) fb1 fb2,
          .undo fu1]).db.rows
      ∧ A ∉ (run s [.delete (some A.ID) fa1 fa2, .delete (some B.ID) fb1 fb2,
          .undo fu1]).db.rows
      ∧ (run s [.delete (some A.ID) fa1 fa2, .delete (some B.ID) fb1 fb2,
          .undo fu1]).deletedStack = s.deletedStack.Push A)
    ∧ ((run s [.delete (some A.ID) fa1 fa2, .delete (some B.ID) fb1 fb2,
          .undo fu1, .undo fu2]).db.rows =
        (s.db.rows.filter (fun x => x.ID != A.ID)).filter (fun x => x.ID != B.ID)
          ++ [B] ++ [A]
      ∧ A ∈ (run s [.delete (some A.ID) fa1 fa2, .delete (some B.ID) fb1 fb2,
          .undo fu1, .undo fu2]).db.rows
      ∧ B ∈ (run s [.delete (some A.ID) fa1 fa2, .delete (some B.ID) fb1 fb2,
          .undo fu1, .undo fu2]).db.rows
      ∧ ∀ x, x ∈ (run s [.delete (some A.ID) fa1 fa2, .delete (some B.ID) fb1 fb2,
          .undo fu1, .undo fu2]).db.rows ↔ x ∈ s.db.rows) := by
  have hne : A.ID ≠ B.ID := ID_ne_of_ne s.db.rows A B hnd hA hB hAB
  simp only [run, serve, step, List.forall_mem_cons] at hok ⊢
  obtain ⟨h1, h2, h3, h4, -⟩ := hok
  obtain ⟨e1, hA0⟩ := delete_present_ok s A fa1 fa2 hnd hA h1
  rw [e1] at h2 h3 h4 ⊢
  have hnd1 := nodup_filter_ID s.db.rows A.ID hnd
  have hB1 : B ∈ s.db.rows.filter (fun x => x.ID != A.ID) :=
    (mem_filter_ID _ _ _).mpr ⟨hB, fun h => hne h.symm⟩
  obtain ⟨e2, hB0⟩ := delete_present_ok
    { db := { s.db with rows := s.db.rows.filter (fun x => x.ID != A.ID) },
      deletedStack := s.deletedStack.Push A } B fb1 fb2 hnd1 hB1 h2
  rw [e2] at h3 h4 ⊢
  have hfreeB : ∀ x ∈ (s.db.rows.filter (fun x => x.ID != A.ID)).filter
      (fun x => x.ID != B.ID), x.ID ≠ B.ID :=
    fun x hx => ((mem_filter_ID _ _ _).mp hx).2
  have hfreeA0 : ∀ x ∈ (s.db.rows.filter (fun x => x.ID != A.ID)).filter
      (fun x => x.ID != B.ID), x.ID ≠ A.ID :=
    fun x hx => ((mem_filter_ID _ _ _).mp ((mem_filter_ID _ _ _).mp hx).1).2
  have e3 := undo_pushed_ok _ _ B fu1 hB0 hfreeB h3
  rw [e3] at h4 ⊢
  have hfreeA : ∀ x ∈ (s.db.rows.filter (fun x => x.ID != A.ID)).filter
      (fun x => x.ID != B.ID) ++ [B], x.ID ≠ A.ID := by
    intro x hx
    rcases List.mem_append.mp hx with h | h
    · exact hfreeA0 x h
    · rw [List.mem_singleton.mp h]
      exact fun h => hne h.symm
  have e4 := undo_pushed_ok _ _ A fu2 hA0 hfreeA h4
  rw [e4]
  refine ⟨rfl, rfl, ⟨rfl, fun h => hfreeA0 A h rfl, fun h => hfreeB B h rfl⟩,
    ⟨rfl, by simp, fun h => hfreeA A h rfl, rfl⟩, rfl, by simp, by simp, ?_⟩
  intro x
  simp only [List.mem_append, List.mem_singleton, mem_filter_ID]
  constructor
  · rintro ((⟨⟨hx, -⟩, -⟩ | rfl) | rfl)
    · exact hx
    · exact hB
    · exact hA
  · intro hx
    by_cases ha : x.ID = A.ID
    · right
      by_contra hxa
      exact ID_ne_of_ne s.db.rows x A hnd hx hA hxa ha
    · by_cases hb : x.ID = B.ID
      · left; right
        by_contra hxb
        exact ID_ne_of_ne s.db.rows x B hnd hx hB hxb hb
      · exact Or.inl (Or.inl ⟨⟨hx, ha⟩, hb⟩)

/-- Witness for C5: with a snapshot already on the undo stack, deleting `shoes`
then `hat` and undoing twice restores `hat` first and `shoes` second, both back
in the table, and leaves the earlier snapshot alone on the stack. -/
theorem delete_delete_undo_undo_lifo_witness :
    (serve { sampleState with deletedStack := { items := [⟨9, "Bag", "Late", "Dalam Proses", ""⟩] } }
        [.delete (some shoes.ID) false false, .delete (some hat.ID) false false,
          .undo false, .undo false]).2 =
      [respondJSON StatusOK (.message (deletedMessage shoes.ID)),
        respondJSON StatusOK (.message (deletedMessage hat.ID)),
        respondJSON StatusOK (.retur hat),
        respondJSON StatusOK (.retur shoes)]
    ∧ (run { sampleState with deletedStack := { items := [⟨9, "Bag", "Late", "Dalam Proses", ""⟩] } }
        [.delete (some shoes.ID) false false, .delete (some hat.ID) false false,
          .undo false, .undo false]).deletedStack
      = { items := [⟨9, "Bag", "Late", "Dalam Proses", ""⟩] }
    ∧ (run { sampleState with deletedStack := { items := [⟨9, "Bag", "Late", "Dalam Proses", ""⟩] } }
        [.delete (some shoes.ID) false false, .delete (some hat.ID) false false]).db.rows = []
    ∧ (run { sampleState with deletedStack := { items := [⟨9, "Bag", "Late", "Dalam Proses", ""⟩] } }
        [.delete (some shoes.ID) false false, .delete (some hat.ID) false false,
          .undo false]).db.rows = [hat]
    ∧ (run { sampleState with deletedStack := { items := [⟨9, "Bag", "Late", "Dalam Proses", ""⟩] } }
        [.delete (some shoes.ID) false false, .delete (some hat.ID) false false,
          .undo false, .undo false]).db.rows = [hat, shoes] :=
  ⟨(delete_delete_undo_undo_lifo
      { sampleState with deletedStack := { items := [⟨9, "Bag", "Late", "Dalam Proses", ""⟩] } }
      shoes hat false false false false false false (by decide) (by decide) (by decide)
      (by decide) (by decide)).1,
    (delete_delete_undo_undo_lifo
      { sampleState with deletedStack := { items := [⟨9, "Bag", "Late", "Dalam Proses", ""⟩] } }
      shoes hat false false false false false false (by decide) (by decide) (by decide)
      (by decide) (by decide)).2.1,
    (delete_delete_undo_undo_lifo
      { sampleState with deletedStack := { items := [⟨9, "Bag", "Late", "Dalam Proses", ""⟩] } }
      shoes hat false false false false false false (by decide) (by decide) (by decide)
      (by decide) (by decide)).2.2.1.1,
    (delete_delete_undo_undo_lifo
      { sampleState with deletedStack := { items := [⟨9, "Bag", "Late", "Dalam Proses", ""⟩] } }
      shoes hat false false false false false false (by decide) (by decide) (by decide)
      (by decide) (by decide)).2.2.2.1.1,
    (delete_delete_undo_undo_lifo
      { sampleState with deletedStack := { items := [⟨9, "Bag", "Late", "Dalam Proses", ""⟩] } }
      shoes hat false false false false false false (by decide) (by decide) (by decide)
      (by decide) (by decide)).2.2.2.2.1⟩

/-! ## Failed deletes and the undo stack -/

/-- A delete whose id is malformed or whose lookup fails changes nothing, the undo
stack included. -/
theorem delete_lookup_failure_keeps_state (s : State) (id : Int) (f2 : Bool) :
    deleteReturHandler s none true f2 = (s, handleError StatusBadRequest "Invalid ID format")
    ∧ deleteReturHandler s (some id) true f2 =
        (s, handleError StatusNotFound "Return not found") := by
  simp [deleteReturHandler, DB.First]

/-- C10 (the code at the failing input). `shoes` is a row of `sampleState` and the
undo stack is empty; `db.First` succeeds and `db.Delete` fails. The handler
answers 500, `shoes` is still a row, and yet its snapshot is on the undo stack. -/
theorem delete_storage_error_keeps_snapshot :
    deleteReturHandler sampleState (some 1) false true =
      ({ db := sampleState.db, deletedStack := { items := [shoes] } },
        handleError StatusInternalServerError "Failed to delete return")
    ∧ shoes ∈ (deleteReturHandler sampleState (some 1) false true).1.db.rows
    ∧ sampleState.deletedStack.items = []
    ∧ (deleteReturHandler sampleState (some 1) false true).1.deletedStack.items = [shoes] := by
  decide

/-! ## Reachable states -/

theorem DB.Create_fields (d d1 : DB) (fault : Bool) (r r1 : Retur)
    (h : d.Create fault r = .ok (d1, r1)) :
    r1.Status = r.Status ∧ r1.Pengembalian = r.Pengembalian
      ∧ ∀ x ∈ d1.rows, x ∈ d.rows ∨ x = r1 := by
  obtain ⟨-, hrows, -, hr, -⟩ := DB.Create_eq_ok d d1 fault r r1 h
  refine ⟨?_, ?_, ?_⟩
  · rw [hr]; split <;> rfl
  · rw [hr]; split <;> rfl
  · intro x hx
    rw [hrows] at hx
    simpa using hx

theorem Stack.Pop_mem {T : Type} [Inhabited T] (s : Stack T) (h : s.IsEmpty = false) :
    s.Pop.1.1 ∈ s.items ∧ ∀ x ∈ s.Pop.2.items, x ∈ s.items := by
  cases s with
  | mk items =>
    rcases List.eq_nil_or_concat items with h1 | ⟨l, y, h1⟩
    · subst h1; simp [Stack.IsEmpty] at h
    · subst h1
      have := Stack.Pop_append_singleton l y
      simp only [List.concat_eq_append]
      rw [this]
      simp
      intro x hx
      exact Or.inl hx

theorem createRetur_All (P : String → String → Prop) (s : State) (body : Option Retur)
    (f : Bool) (hq : ∀ b, body = some b → P "Dalam Proses" b.Pengembalian) (h : s.All P) :
    (createRetur s body f).1.All P := by
  unfold createRetur
  cases body with
  | none => exact h
  | some decoded =>
    simp only
    cases hc : s.db.Create f { decoded with Status := "Dalam Proses" } with
    | error e => exact h
    | ok p =>
      obtain ⟨db1, created⟩ := p
      obtain ⟨hs, hp, hrows⟩ := DB.Create_fields _ _ _ _ _ hc
      refine ⟨?_, h.2⟩
      intro x hx
      rcases hrows x hx with hx | hx
      · exact h.1 x hx
      · subst hx
        rw [hs, hp]
        exact hq decoded rfl

theorem approveReturHandler_All (P : String → String → Prop)
    (hA : ∀ m, (m = "barang" ∨ m = "uang") → P "Disetujui" m)
    (s : State) (idArg : Option Int) (body : Option ApproveInput)
    (f1 f2 : Bool) (h : s.All P) : (approveReturHandler s idArg body f1 f2).1.All P := by
  unfold approveReturHandler
  cases idArg with
  | none => exact h
  | some id =>
    cases body with
    | none => exact h
    | some input =>
      simp only
      by_cases hg : input.Pengembalian ≠ "barang" ∧ input.Pengembalian ≠ "uang"
      · rw [if_pos hg]; exact h
      · rw [if_neg hg]
        have hm : input.Pengembalian = "barang" ∨ input.Pengembalian = "uang" := by
          by_cases hb : input.Pengembalian = "barang"
          · exact Or.inl hb
          · exact Or.inr (by_contra fun hu => hg ⟨hb, hu⟩)
        cases hf : s.db.First f1 id with
        | error e => exact h
        | ok found =>
          simp only
          cases hs : s.db.Save f2
              { found with Pengembalian := input.Pengembalian, Status := "Disetujui" } with
          | error e => exact h
          | ok p =>
            obtain ⟨db1, saved⟩ := p
            obtain ⟨-, hst, hpg, hrows⟩ := DB.Save_eq_ok _ _ _ _ _ hs
            refine ⟨?_, h.2⟩
            intro x hx
            rcases hrows x hx with hx | hx
            · exact h.1 x hx
            · subst hx
              rw [hst, hpg]
              exact hA _ hm

theorem deleteReturHandler_All (P : String → String → Prop) (s : State)
    (idArg : Option Int) (f1 f2 : Bool) (h : s.All P) :
    (deleteReturHandler s idArg f1 f2).1.All P := by
  unfold deleteReturHandler
  cases idArg with
  | none => exact h
  | some id =>
    simp only
    cases hf : s.db.First f1 id with
    | error e => exact h
    | ok retur =>
      obtain ⟨-, hmem, -⟩ := DB.First_eq_ok _ _ _ _ hf
      have hstack : ∀ r ∈ (s.deletedStack.Push retur).items, P r.Status r.Pengembalian := by
        intro r hr
        simp only [Stack.Push, List.mem_append, List.mem_singleton] at hr
        rcases hr with hr | hr
        · exact h.2 r hr
        · subst hr; exact h.1 _ hmem
      simp only
      cases hd : s.db.Delete f2 retur with
      | error e => exact ⟨h.1, hstack⟩
      | ok db1 =>
        obtain ⟨-, -, hdb⟩ := DB.Delete_eq_ok _ _ _ _ hd
        subst hdb
        refine ⟨?_, hstack⟩
        intro x hx
        exact h.1 x ((mem_filter_ID _ _ _).mp hx).1

theorem undoDeleteReturHandler_All (P : String → String → Prop) (s : State) (f : Bool)
    (h : s.All P) : (undoDeleteReturHandler s f).1.All P := by
  unfold undoDeleteReturHandler
  cases he : s.deletedStack.IsEmpty with
  | true => exact h
  | false =>
    obtain ⟨hitem, hrest⟩ := Stack.Pop_mem s.deletedStack he
    have hstack : ∀ r ∈ s.deletedStack.Pop.2.items, P r.Status r.Pengembalian :=
      fun r hr => h.2 r (hrest r hr)
    simp only [Bool.false_eq_true, if_false]
    cases hc : s.db.Create f s.deletedStack.Pop.1.1 with
    | error e => exact ⟨h.1, hstack⟩
    | ok p =>
      obtain ⟨db1, restored⟩ := p
      obtain ⟨hs, hp, hrows⟩ := DB.Create_fields _ _ _ _ _ hc
      refine ⟨?_, hstack⟩
      intro x hx
      rcases hrows x hx with hx | hx
      · exact h.1 x hx
      · subst hx
        rw [hs, hp]
        exact h.2 _ hitem

theorem step_All (P : String → String → Prop)
    (hA : ∀ m, (m = "barang" ∨ m = "uang") → P "Disetujui" m) (s : State) (q : Request)
    (hq : ∀ b f, q = .create (some b) f → P "Dalam Proses" b.Pengembalian) (h : s.All P) :
    (step s q).1.All P := by
  cases q with
  | list f =>
    simp only [step, getReturs]
    split <;> exact h
  | create b f =>
    exact createRetur_All P s b f (fun b0 hb => hq b0 f (by rw [hb])) h
  | approve i b f1 f2 => exact approveReturHandler_All P hA s i b f1 f2 h
  | delete i f1 f2 => exact deleteReturHandler_All P s i f1 f2 h
  | undo f => exact undoDeleteReturHandler_All P s f h

theorem run_All (P : String → String → Prop)
    (hA : ∀ m, (m = "barang" ∨ m = "uang") → P "Disetujui" m) (reqs : List Request)
    (s : State)
    (hq : ∀ q ∈ reqs, ∀ b f, q = .create (some b) f → P "Dalam Proses" b.Pengembalian)
    (h : s.All P) : (run s reqs).All P := by
  induction reqs generalizing s with
  | nil => exact h
  | cons q qs ih =>
    exact ih (step s q).1 (fun q0 hq0 => hq q0 (List.mem_cons_of_mem _ hq0))
      (step_All P hA s q (hq q (List.mem_cons_self _ _)) h)

theorem initState_All (P : String → String → Prop) : initState.All P := by
  constructor <;> intro r hr <;> simp [initState, DB.empty] at hr

/-- Counterexample to C9: one create request whose body carries the refund mode
"uang" leaves a pending row with a non-empty refund mode. -/
theorem reachable_iff_counterexample :
    (run initState [.create (some ⟨0, "Shoes", "Wrong size", "", "uang"⟩) false]).db.rows
      = [⟨1, "Shoes", "Wrong size", "Dalam Proses", "uang"⟩]
    ∧ ¬ ((⟨1, "Shoes", "Wrong size", "Dalam Proses", "uang"⟩ : Retur).Pengembalian ≠ ""
        ↔ (⟨1, "Shoes", "Wrong size", "Dalam Proses", "uang"⟩ : Retur).Status = "Disetujui") := by
  decide

/-- C9 (amended). From the empty table and the empty undo stack, after every finite
sequence of list, create, approve, delete and undo requests, with any bodies and
any backend faults, every row whose status is "Disetujui" has the refund mode
"barang" or "uang", which is not empty. When no create request of the sequence
carried a refund mode in its body, the converse holds too: a row has a non-empty
refund mode if and only if its status is "Disetujui". -/
theorem reachable_approved_has_mode (reqs : List Request) (r : Retur)
    (hr : r ∈ (run initState reqs).db.rows) :
    (r.Status = "Disetujui" →
      (r.Pengembalian = "barang" ∨ r.Pengembalian = "uang") ∧ r.Pengembalian ≠ "")
    ∧ ((∀ q ∈ reqs, q.carriesMode = false) →
      (r.Pengembalian ≠ "" ↔ r.Status = "Disetujui")) := by
  constructor
  · intro hs
    have hall := run_All Lifecycle (fun m hm => Or.inr ⟨rfl, hm⟩) reqs initState
      (fun _ _ _ _ _ => Or.inl rfl) (initState_All _)
    rcases hall.1 r hr with h | h
    · rw [hs] at h
      exact absurd h (by decide)
    · refine ⟨h.2, ?_⟩
      rcases h.2 with hp | hp <;> rw [hp] <;> decide
  · intro hplain
    have hall := run_All StrictLifecycle (fun m hm => Or.inr ⟨rfl, hm⟩) reqs initState
      (fun q hq b f hb => by
        have := hplain q hq
        rw [hb] at this
        simp only [Request.carriesMode, bne_eq_false_iff_eq] at this
        exact Or.inl ⟨rfl, this⟩)
      (initState_All _)
    rcases hall.1 r hr with h | h
    · rw [h.1, h.2]
      decide
    · rw [h.1]
      rcases h.2 with hp | hp <;> rw [hp] <;> decide

/-- Witness for C9 (amended): create without a refund mode, then approve with
"uang". -/
theorem reachable_approved_has_mode_witness :
    (⟨1, "Shoes", "Wrong size", "Disetujui", "uang"⟩ : Retur) ∈
      (run initState [.create (some ⟨0, "Shoes", "Wrong size", "", ""⟩) false,
        .approve (some 1) (some ⟨"uang"⟩) false false]).db.rows
    ∧ (("uang" = "barang" ∨ "uang" = "uang") ∧ "uang" ≠ "")
    ∧ ("uang" ≠ "" ↔ "Disetujui" = "Disetujui") :=
  ⟨by decide,
    (reachable_approved_has_mode
      [.create (some ⟨0, "Shoes", "Wrong size", "", ""⟩) false,
        .approve (some 1) (some ⟨"uang"⟩) false false]
      ⟨1, "Shoes", "Wrong size", "Disetujui", "uang"⟩ (by decide)).1 rfl,
    (reachable_approved_has_mode
      [.create (some ⟨0, "Shoes", "Wrong size", "", ""⟩) false,
        .approve (some 1) (some ⟨"uang"⟩) false false]
      ⟨1, "Shoes", "Wrong size", "Disetujui", "uang"⟩ (by decide)).2 (by decide)⟩

/-! ## The table constraints are kept by every request -/

theorem DB.WF_append (d : DB) (r : Retur) (h : d.WF) (h0 : r.ID ≠ 0)
    (hfree : ∀ x ∈ d.rows, x.ID ≠ r.ID) :
    DB.WF { rows := d.rows ++ [r], autoInc := max d.autoInc (r.ID + 1) } := by
  obtain ⟨hnd, hrows, hpos⟩ := h
  refine ⟨?_, ?_, ?_⟩
  · simp only [List.map_append, List.map_cons, List.map_nil]
    apply List.Nodup.append hnd (List.nodup_singleton _)
    intro a ha hb
    obtain ⟨x, hx, rfl⟩ := List.mem_map.mp ha
    exact hfree x hx (List.mem_singleton.mp hb)
  · intro x hx
    rcases List.mem_append.mp hx with hx | hx
    · obtain ⟨hx0, hlt⟩ := hrows x hx
      exact ⟨hx0, lt_of_lt_of_le hlt (le_max_left _ _)⟩
    · rw [List.mem_singleton.mp hx]
      exact ⟨h0, lt_of_lt_of_le (Int.lt_succ r.ID) (le_max_right _ _)⟩
  · exact lt_of_lt_of_le hpos (le_max_left _ _)

theorem DB.Create_WF (d d1 : DB) (fault : Bool) (r r1 : Retur) (h : d.WF)
    (hc : d.Create fault r = .ok (d1, r1)) : d1.WF := by
  obtain ⟨-, hrows, hauto, hr, hfree⟩ := DB.Create_eq_ok d d1 fault r r1 hc
  have h0 : r1.ID ≠ 0 := by
    rw [hr]
    split
    · exact ne_of_gt h.2.2
    · assumption
  have := DB.WF_append d r1 h h0 hfree
  cases d1 with
  | mk rows autoInc =>
    simp only at hrows hauto
    subst hrows hauto
    exact this

theorem DB.Save_WF (d d1 : DB) (fault : Bool) (r r1 : Retur) (h : d.WF)
    (hs : d.Save fault r = .ok (d1, r1)) : d1.WF := by
  unfold DB.Save at hs
  cases fault with
  | true => simp at hs
  | false =>
    simp only [Bool.false_eq_true, if_false] at hs
    by_cases h0 : r.ID = 0
    · rw [if_pos h0] at hs
      exact DB.Create_WF d d1 false r r1 h hs
    · rw [if_neg h0] at hs
      by_cases hh : d.hasID r.ID = true
      · rw [if_pos hh] at hs
        simp only [Except.ok.injEq, Prod.mk.injEq] at hs
        obtain ⟨h1, -⟩ := hs
        subst h1
        obtain ⟨hnd, hrows, hpos⟩ := h
        obtain ⟨y, hy, hyid⟩ := (DB.hasID_eq_true d r.ID).mp hh
        have hmap : (d.rows.map (fun x => if x.ID = r.ID then r else x)).map (fun x => x.ID)
            = d.rows.map (fun x => x.ID) := by
          rw [List.map_map]
          apply List.map_congr_left
          intro x _
          simp only [Function.comp]
          split
          · rename_i he; exact he.symm
          · rfl
        refine ⟨by simpa only [hmap] using hnd, ?_, hpos⟩
        intro x hx
        obtain ⟨z, hz, hxz⟩ := List.mem_map.mp hx
        split at hxz
        · subst hxz
          exact ⟨h0, hyid ▸ (hrows y hy).2⟩
        · subst hxz
          exact hrows z hz
      · rw [if_neg hh] at hs
        unfold DB.insert at hs
        simp only [hh, Bool.false_eq_true, if_false, Except.ok.injEq, Prod.mk.injEq] at hs
        obtain ⟨h1, -⟩ := hs
        subst h1
        exact DB.WF_append d r h h0 ((DB.hasID_eq_false d r.ID).mp (by simpa using hh))

theorem DB.Delete_WF (d d1 : DB) (fault : Bool) (r : Retur) (h : d.WF)
    (hd : d.Delete fault r = .ok d1) : d1.WF := by
  obtain ⟨-, -, hdb⟩ := DB.Delete_eq_ok d d1 fault r hd
  subst hdb
  obtain ⟨hnd, hrows, hpos⟩ := h
  exact ⟨nodup_filter_ID d.rows r.ID hnd,
    fun x hx => hrows x ((mem_filter_ID _ _ _).mp hx).1, hpos⟩

theorem step_WF (s : State) (q : Request) (h : s.db.WF) : (step s q).1.db.WF := by
  cases q with
  | list f =>
    simp only [step, getReturs]
    split <;> exact h
  | create b f =>
    simp only [step, createRetur]
    cases b with
    | none => exact h
    | some decoded =>
      simp only
      cases hc : s.db.Create f { decoded with Status := "Dalam Proses" } with
      | error e => exact h
      | ok p => exact DB.Create_WF _ _ _ _ _ h hc
  | approve i b f1 f2 =>
    simp only [step, approveReturHandler]
    cases i with
    | none => exact h
    | some id =>
      cases b with
      | none => exact h
      | some input =>
        simp only
        split
        · exact h
        · cases hf : s.db.First f1 id with
          | error e => exact h
          | ok found =>
            simp only
            cases hs : s.db.Save f2
                { found with Pengembalian := input.Pengembalian, Status := "Disetujui" } with
            | error e => exact h
            | ok p => exact DB.Save_WF _ _ _ _ _ h hs
  | delete i f1 f2 =>
    simp only [step, deleteReturHandler]
    cases i with
    | none => exact h
    | some id =>
      simp only
      cases hf : s.db.First f1 id with
      | error e => exact h
      | ok retur =>
        simp only
        cases hd : s.db.Delete f2 retur with
        | error e => exact h
        | ok db1 => exact DB.Delete_WF _ _ _ _ h hd
  | undo f =>
    simp only [step, undoDeleteReturHandler]
    split
    · exact h
    · cases hc : s.db.Create f s.deletedStack.Pop.1.1 with
      | error e => exact h
      | ok p => exact DB.Create_WF _ _ _ _ _ h hc

theorem run_WF (reqs : List Request) (s : State) (h : s.db.WF) : (run s reqs).db.WF := by
  induction reqs generalizing s with
  | nil => exact h
  | cons q qs ih => exact ih (step s q).1 (step_WF s q h)

theorem initState_WF : initState.db.WF := by
  refine ⟨by simp [initState, DB.empty], ?_, by decide⟩
  intro x hx
  simp [initState, DB.empty] at hx

/-- On a well-formed table a create whose body carries no id never fails unless
the backend does: the table assigns the next counter value. -/
theorem createRetur_zero_id_ok (s : State) (decoded : Retur) (h : s.db.WF)
    (h0 : decoded.ID = 0) :
    (createRetur s (some decoded) false).2 =
      respondJSON StatusCreated
        (.retur { decoded with ID := s.db.autoInc, Status := "Dalam Proses" }) := by
  have hh : s.db.hasID s.db.autoInc = false :=
    (DB.hasID_eq_false _ _).mpr (fun x hx => ne_of_lt (h.2.1 x hx).2)
  simp [createRetur, DB.Create, DB.insert, h0, hh]

end ReturApp
